import Mathlib

/-!
# Blog UI script (`src/index.js`): theme toggle and comment board

A shallow embedding of the stateful parts of `index.js`:

* JavaScript strings are sequences of UTF-16 code units (`JSString`), so that
  `.length`, `.trim()` and the regular-expression replacements of `escapeHtml`
  act on the same units as in the script.
* JavaScript values that can sit in the `comments` array (everything
  `JSON.parse` can produce, the entry literal built by the submit handler, and
  `undefined` for absent properties) are the type `JSVal ν`, with `ν` the
  runtime's Number type.
* The built-ins the script calls but does not define (`JSON.parse`,
  `JSON.stringify`, `String(...)` on non-primitive values,
  `new Date(...).toLocaleString()`) are the fields of `Runtime`.
* `localStorage` is a map from keys to optional text; every read and write
  takes a flag saying whether the browser lets the call through or throws.
* The mutable script state (module variable `comments`, the DOM pieces the
  handlers touch, storage) is the record `State`; each handler is a function
  on it, returning the uncaught exception, if any.
-/

namespace BlogUI

/-! ## Strings -/

/-- A JavaScript string: its UTF-16 code units. -/
abbrev JSString := List Nat

/-- UTF-16 code units of one Unicode scalar value. -/
def utf16Char (c : Char) : List Nat :=
  if c.toNat < 65536 then [c.toNat]
  else [55296 + (c.toNat - 65536) / 1024, 56320 + (c.toNat - 65536) % 1024]

/-- The JavaScript string written by a literal. -/
def utf16 (s : String) : JSString := s.toList.flatMap utf16Char

/-- Storage key of the theme preference (`const LS_KEY`). -/
def LS_KEY : JSString := utf16 "blog_bw_mode_v1"

/-- Storage key of the comment list (`const COMMENTS_KEY`). -/
def COMMENTS_KEY : JSString := utf16 "blog_comments_v1"

/-- Code units removed by `String.prototype.trim`: ECMAScript WhiteSpace and
LineTerminator. -/
def isTrimUnit (c : Nat) : Bool :=
  c = 9 || c = 10 || c = 11 || c = 12 || c = 13 || c = 32 || c = 160 || c = 5760
    || (8192 ≤ c && c ≤ 8202) || c = 8232 || c = 8233 || c = 8239 || c = 8287
    || c = 12288 || c = 65279

/-- JavaScript `s.trim()`. -/
def trim (s : JSString) : JSString :=
  ((s.dropWhile isTrimUnit).reverse.dropWhile isTrimUnit).reverse

/-- JavaScript `s || ''` on a string `s`. -/
def orEmpty (s : JSString) : JSString := if s = [] then [] else s

/-- JavaScript `s.replace(/c/g, rep)` for a single literal character `c` and a
replacement text without `$` patterns. -/
def replaceAll (c : Nat) (rep : JSString) (s : JSString) : JSString :=
  s.flatMap (fun x => if x = c then rep else [x])

/-- The five chained replacements of `escapeHtml`, on a string. -/
def escapeText (s : JSString) : JSString :=
  replaceAll 39 (utf16 "&#39;")
    (replaceAll 34 (utf16 "&quot;")
      (replaceAll 62 (utf16 "&gt;")
        (replaceAll 60 (utf16 "&lt;")
          (replaceAll 38 (utf16 "&amp;") s))))

/-- The five entities `escapeHtml` emits. -/
def entities : List JSString :=
  [utf16 "&amp;", utf16 "&lt;", utf16 "&gt;", utf16 "&quot;", utf16 "&#39;"]

/-- Reading escaped text back, with a step budget: each of the five entities
stands for its character, every other code unit for itself (what an HTML
parser shows for text that uses only these entities). One step emits one
character. -/
def decodeFuel : Nat → JSString → JSString
  | 0, _ => []
  | _, [] => []
  | fuel + 1, c :: r =>
    if (utf16 "&amp;").isPrefixOf (c :: r) then 38 :: decodeFuel fuel (r.drop 4)
    else if (utf16 "&lt;").isPrefixOf (c :: r) then 60 :: decodeFuel fuel (r.drop 3)
    else if (utf16 "&gt;").isPrefixOf (c :: r) then 62 :: decodeFuel fuel (r.drop 3)
    else if (utf16 "&quot;").isPrefixOf (c :: r) then 34 :: decodeFuel fuel (r.drop 5)
    else if (utf16 "&#39;").isPrefixOf (c :: r) then 39 :: decodeFuel fuel (r.drop 4)
    else c :: decodeFuel fuel r

/-- Decoding of the five entities; the budget is the length of the text, which
no decoding exceeds. -/
def decodeEntities (s : JSString) : JSString := decodeFuel s.length s

/-- What the chain of replacements makes of one code unit. -/
def escUnit (c : Nat) : JSString :=
  if c = 38 then utf16 "&amp;"
  else if c = 60 then utf16 "&lt;"
  else if c = 62 then utf16 "&gt;"
  else if c = 34 then utf16 "&quot;"
  else if c = 39 then utf16 "&#39;"
  else [c]

/-- Every `&` of `out` is the first character of one of the five entities. -/
def AmpStartsEntity (out : JSString) : Prop :=
  ∀ i, out[i]? = some 38 → ∃ e ∈ entities, e <+: out.drop i

/-! ## Values, exceptions, runtime -/

/-- Exceptions the modelled code can meet. -/
inductive JSError
  | TypeError
  | SyntaxError
  | StorageError
  deriving DecidableEq, Repr

/-- JavaScript values reachable from the `comments` array. -/
inductive JSVal (ν : Type)
  | undefined
  | null
  | bool (b : Bool)
  | num (x : ν)
  | str (s : JSString)
  | arr (xs : List (JSVal ν))
  | obj (props : List (JSString × JSVal ν))

/-- Built-ins of the JavaScript runtime used by the script. -/
structure Runtime (ν : Type) where
  /-- The function `JSON.parse`; `none` when it throws a `SyntaxError`. -/
  parse : JSString → Option (JSVal ν)
  /-- The empty text is not JSON. -/
  parse_empty : parse [] = none
  /-- The function `JSON.stringify`. -/
  stringify : JSVal ν → JSString
  /-- Truthiness of a number (false for zero and NaN). -/
  numTruthy : ν → Bool
  /-- The conversion `String(v)` for numbers, arrays and objects. -/
  toStr : JSVal ν → Except JSError JSString
  /-- The expression `new Date(v).toLocaleString()`. -/
  dateLocale : JSVal ν → Except JSError JSString

section Model

variable {ν : Type}

/-- JavaScript `String(v)`. -/
def jsString (rt : Runtime ν) : JSVal ν → Except JSError JSString
  | .str s => .ok s
  | .undefined => .ok (utf16 "undefined")
  | .null => .ok (utf16 "null")
  | .bool true => .ok (utf16 "true")
  | .bool false => .ok (utf16 "false")
  | v => rt.toStr v

/-- Source `escapeHtml(s)`: `String(s)` followed by the five replacements. -/
def escapeHtml (rt : Runtime ν) (v : JSVal ν) : Except JSError JSString :=
  (jsString rt v).map escapeText

/-- JavaScript truthiness. -/
def truthy (rt : Runtime ν) : JSVal ν → Bool
  | .undefined => false
  | .null => false
  | .bool b => b
  | .num x => rt.numTruthy x
  | .str s => !s.isEmpty
  | .arr _ => true
  | .obj _ => true

/-- Property read `v.key` for a key that no built-in prototype defines (the
script reads `name`, `body` and `ts`): a `TypeError` on `null` and
`undefined`, the own property of an object, `undefined` otherwise. -/
def getField (v : JSVal ν) (key : JSString) : Except JSError (JSVal ν) :=
  match v with
  | .undefined => .error .TypeError
  | .null => .error .TypeError
  | .obj props =>
    match props.find? (fun p => p.1 = key) with
    | some p => .ok p.2
    | none => .ok .undefined
  | _ => .ok .undefined

/-! ## Storage -/

/-- Contents of `localStorage`. -/
abbrev Storage := JSString → Option JSString

/-- The call `localStorage.getItem(key)`; throws when `readOk` is false. -/
def getItem (readOk : Bool) (st : Storage) (key : JSString) :
    Except JSError (Option JSString) :=
  if readOk then .ok (st key) else .error .StorageError

/-- The call `localStorage.setItem(key, val)`; throws when `writeOk` is false. -/
def setItem (writeOk : Bool) (st : Storage) (key val : JSString) :
    Except JSError Storage :=
  if writeOk then .ok (Function.update st key (some val)) else .error .StorageError

/-- A `try { body } catch (e) { handler }` block. -/
def tryCatch {α : Type} (body : Except JSError α) (handler : JSError → Except JSError α) :
    Except JSError α :=
  match body with
  | .ok a => .ok a
  | .error e => handler e

/-- Body of the `try` block of `loadComments`: `some xs` when it returns `xs`,
`none` when control falls out of the block. -/
def loadCommentsTry (rt : Runtime ν) (readOk : Bool) (st : Storage) :
    Except JSError (Option (List (JSVal ν))) :=
  match getItem readOk st COMMENTS_KEY with
  | .error e => .error e
  | .ok none => .ok (some [])
  | .ok (some raw) =>
    if raw.isEmpty then .ok (some [])
    else
      match rt.parse raw with
      | none => .error .SyntaxError
      | some (.arr xs) => .ok (some xs)
      | some _ => .ok none

/-- Source `loadComments()`. -/
def loadComments (rt : Runtime ν) (readOk : Bool) (st : Storage) :
    Except JSError (List (JSVal ν)) :=
  match tryCatch (loadCommentsTry rt readOk st) (fun _ => .ok none) with
  | .ok (some xs) => .ok xs
  | .ok none => .ok []
  | .error e => .error e

/-! ## Page state -/

/-- Calls with an outside effect that the handlers make and the claims name. -/
inductive Effect
  | confirm
  | setItem (key val : JSString) (ok : Bool)
  deriving DecidableEq, Repr

/-- Children of the `#comments-list` element. -/
inductive Node
  | placeholder
  | item (metaHtml bodyHtml : JSString)
  deriving DecidableEq, Repr

/-- The toggle button `bwBtn`. -/
structure Button where
  /-- Value of the `aria-pressed` attribute. -/
  ariaPressed : JSString
  /-- Tokens of the class list. -/
  classList : List JSString
  deriving DecidableEq, Repr

/-- The call `classList.contains(tok)`. -/
def clsContains (cl : List JSString) (tok : JSString) : Bool := cl.contains tok

/-- The call `classList.add(tok)`. -/
def clsAdd (cl : List JSString) (tok : JSString) : List JSString :=
  if cl.contains tok then cl else cl ++ [tok]

/-- The call `classList.remove(tok)`. -/
def clsRemove (cl : List JSString) (tok : JSString) : List JSString :=
  cl.filter (fun t => t ≠ tok)

/-- The call `classList.toggle(tok)`: the new list and the returned boolean. -/
def clsToggle (cl : List JSString) (tok : JSString) : List JSString × Bool :=
  if cl.contains tok then (clsRemove cl tok, false) else (clsAdd cl tok, true)

/-- Class token `bw` of the document root. -/
def BW : JSString := utf16 "bw"

/-- Class token `bw-toggle-btn-on`. -/
def BTN_ON : JSString := utf16 "bw-toggle-btn-on"

/-- Class token `bw-toggle-btn-off`. -/
def BTN_OFF : JSString := utf16 "bw-toggle-btn-off"

/-- Source `mkBtn`, as far as the attribute and classes go: `className` is the
three fixed groups joined with `extraClasses`. -/
def mkBtn (pressed : Bool) (extraClasses : List JSString) : Button where
  ariaPressed := if pressed then utf16 "true" else utf16 "false"
  classList :=
    [utf16 "w-11", utf16 "h-11", utf16 "rounded-lg", utf16 "border", utf16 "flex",
      utf16 "items-center", utf16 "justify-center", utf16 "bg-white", utf16 "text-black",
      utf16 "border-gray-200", utf16 "shadow-sm", utf16 "hover:-translate-y-1",
      utf16 "transition-transform"] ++ extraClasses

/-- Mutable state of the page as the script sees it. -/
structure State (ν : Type) where
  /-- Module variable `comments`. -/
  comments : List (JSVal ν)
  /-- The store behind `localStorage`. -/
  storage : Storage
  /-- Class list of `document.documentElement`. -/
  rootClasses : List JSString
  /-- The toggle button. -/
  bwBtn : Button
  /-- Children of `commentsListEl`. -/
  listChildren : List Node
  /-- Value of the name input. -/
  inputName : JSString
  /-- Value of the body textarea. -/
  inputBody : JSString
  /-- Whether the last `focus()` call went to the body textarea. -/
  bodyFocused : Bool
  /-- Effects performed so far, oldest first. -/
  log : List Effect

/-- Source `saveComments(arr)`: the write is attempted and a failure ignored. -/
def saveComments (rt : Runtime ν) (writeOk : Bool) (arr : List (JSVal ν)) (s : State ν) :
    State ν :=
  let val := rt.stringify (.arr arr)
  match setItem writeOk s.storage COMMENTS_KEY val with
  | .ok st => { s with storage := st, log := s.log ++ [.setItem COMMENTS_KEY val true] }
  | .error _ => { s with log := s.log ++ [.setItem COMMENTS_KEY val false] }

/-- Markup before the name in the meta line of a comment. -/
def META_OPEN : JSString := utf16 "<strong class=\"font-medium text-gray-900\">"

/-- Markup between the name and the time. -/
def META_MID : JSString := utf16 "</strong> · <span class=\"opacity-75\">"

/-- Markup after the time. -/
def META_CLOSE : JSString := utf16 "</span>"

/-- Body of the `forEach` callback of `renderComments` for one element. -/
def renderItem (rt : Runtime ν) (c : JSVal ν) : Except JSError Node := do
  let name ← getField c (utf16 "name")
  let who ← if truthy rt name then escapeHtml rt name else pure (utf16 "Anonymous")
  let ts ← getField c (utf16 "ts")
  let time ← rt.dateLocale ts
  let timeHtml ← escapeHtml rt (.str time)
  let metaHtml := META_OPEN ++ who ++ META_MID ++ timeHtml ++ META_CLOSE
  let body ← getField c (utf16 "body")
  let bodyHtml ← escapeHtml rt body
  pure (.item metaHtml bodyHtml)

/-- The `forEach` loop of `renderComments`: children appended so far and the
exception that stopped the loop, if any. -/
def renderLoop (rt : Runtime ν) : List (JSVal ν) → List Node → List Node × Option JSError
  | [], acc => (acc, none)
  | c :: cs, acc =>
    match renderItem rt c with
    | .error e => (acc, some e)
    | .ok n => renderLoop rt cs (acc ++ [n])

/-- Source `renderComments()` (the scroll position is not modelled). -/
def renderComments (rt : Runtime ν) (s : State ν) : State ν × Option JSError :=
  if s.comments.length = 0 then
    ({ s with listChildren := [.placeholder] }, none)
  else
    let r := renderLoop rt s.comments []
    ({ s with listChildren := r.1 }, r.2)

/-- JavaScript `arr.slice(-k)`. -/
def sliceLast (k : Nat) (xs : List (JSVal ν)) : List (JSVal ν) :=
  xs.drop (xs.length - k)

/-- The object literal `{ name: name || '', body: body, ts: Date.now() }`. -/
def mkEntry (name body : JSString) (now : ν) : JSVal ν :=
  .obj [(utf16 "name", .str (orEmpty name)), (utf16 "body", .str body), (utf16 "ts", .num now)]

/-- The form's `submit` listener. `now` is the value of `Date.now()`. -/
def submitHandler (rt : Runtime ν) (now : ν) (writeOk : Bool) (s : State ν) :
    State ν × Option JSError :=
  let body := trim (orEmpty s.inputBody)
  if body.isEmpty || body.length < 2 then
    ({ s with bodyFocused := true }, none)
  else
    let name := trim (orEmpty s.inputName)
    let entry := mkEntry name body now
    let pushed := s.comments ++ [entry]
    let kept := if pushed.length > 200 then sliceLast 200 pushed else pushed
    let s1 := saveComments rt writeOk kept { s with comments := kept }
    match renderComments rt s1 with
    | (s2, some e) => (s2, some e)
    | (s2, none) => ({ s2 with inputName := [], inputBody := [], bodyFocused := true }, none)

/-- The `click` listener of the "Clear all" button. `answer` is what
`confirm(...)` returns if it is called. -/
def clearHandler (rt : Runtime ν) (answer writeOk : Bool) (s : State ν) :
    State ν × Option JSError :=
  if s.comments.length = 0 then (s, none)
  else
    let s0 := { s with log := s.log ++ [.confirm] }
    if !answer then (s0, none)
    else
      let s1 := saveComments rt writeOk [] { s0 with comments := [] }
      renderComments rt s1

/-- The statement `try { localStorage.setItem(LS_KEY, enabled ? '1' : '0') } catch (e) {}`. -/
def persistBW (enabled writeOk : Bool) (s : State ν) : State ν :=
  let val := if enabled then utf16 "1" else utf16 "0"
  match setItem writeOk s.storage LS_KEY val with
  | .ok st => { s with storage := st, log := s.log ++ [.setItem LS_KEY val true] }
  | .error _ => { s with log := s.log ++ [.setItem LS_KEY val false] }

/-- Source `applyBW(enabled, persist)`. -/
def applyBW (enabled persist writeOk : Bool) (s : State ν) : State ν :=
  let s1 : State ν :=
    if enabled then
      { s with
        rootClasses := clsAdd s.rootClasses BW
        bwBtn :=
          { ariaPressed := utf16 "true"
            classList := clsAdd (clsRemove s.bwBtn.classList BTN_OFF) BTN_ON } }
    else
      { s with
        rootClasses := clsRemove s.rootClasses BW
        bwBtn :=
          { ariaPressed := utf16 "false"
            classList := clsAdd (clsRemove s.bwBtn.classList BTN_ON) BTN_OFF } }
  if persist then persistBW enabled writeOk s1 else s1

/-- Source `loadPref()`. No write is attempted, so the write flag is unused. -/
def loadPref (readOk : Bool) (s : State ν) : State ν :=
  match getItem readOk s.storage LS_KEY with
  | .ok v => if v = some (utf16 "1") then applyBW true false true s else applyBW false false true s
  | .error _ => applyBW false false true s

/-- The statement after `loadPref` that sets the button class from the root class. -/
def initButton (s : State ν) : State ν :=
  if clsContains s.rootClasses BW then
    { s with bwBtn := { s.bwBtn with classList := clsAdd s.bwBtn.classList BTN_ON } }
  else
    { s with bwBtn := { s.bwBtn with classList := clsAdd s.bwBtn.classList BTN_OFF } }

/-- The `click` listener of the toggle button. -/
def clickHandler (writeOk : Bool) (s : State ν) : State ν :=
  let t := clsToggle s.rootClasses BW
  let enabled := t.2
  let s1 : State ν :=
    { s with
      rootClasses := t.1
      bwBtn :=
        { ariaPressed := if enabled then utf16 "true" else utf16 "false"
          classList :=
            if enabled then clsAdd (clsRemove s.bwBtn.classList BTN_OFF) BTN_ON
            else clsAdd (clsRemove s.bwBtn.classList BTN_ON) BTN_OFF } }
  persistBW enabled writeOk s1

/-- The script body from top to bottom, on a page whose root has the classes
`rootClasses` and whose storage is `st`: build the widgets, load and render the
comments, load the theme preference, set the button class. An exception in
`renderComments()` ends the script before any listener is registered. -/
def startup (rt : Runtime ν) (readComments readPref : Bool) (st : Storage)
    (rootClasses : List JSString) : Except JSError (State ν) :=
  match loadComments rt readComments st with
  | .error e => .error e
  | .ok cs =>
    let s0 : State ν :=
      { comments := cs
        storage := st
        rootClasses := rootClasses
        bwBtn := mkBtn false []
        listChildren := [.placeholder]
        inputName := []
        inputBody := []
        bodyFocused := false
        log := [] }
    match renderComments rt s0 with
    | (_, some e) => .error e
    | (s1, none) => .ok (initButton (loadPref readPref s1))

/-- What can happen on the page after start-up. -/
inductive Action (ν : Type)
  | submit (name body : JSString) (now : ν) (writeOk : Bool)
  | clearAll (answer writeOk : Bool)
  | click (writeOk : Bool)
  | applyBW (enabled persist writeOk : Bool)

/-- One action: the user's input, if any, then the listener. An exception
that escapes a listener is reported by the browser and the page goes on. -/
def step (rt : Runtime ν) (s : State ν) : Action ν → State ν
  | .submit n b now w => (submitHandler rt now w { s with inputName := n, inputBody := b }).1
  | .clearAll a w => (clearHandler rt a w s).1
  | .click w => clickHandler w s
  | .applyBW e p w => applyBW e p w s

/-- A sequence of actions, first to last. -/
def run (rt : Runtime ν) (s : State ν) (acts : List (Action ν)) : State ν :=
  acts.foldl (step rt) s

/-- The last `n` elements of a list, in their order (the reading of
"truncated to the most recent `n`"). -/
def lastN {α : Type} (n : Nat) (xs : List α) : List α :=
  (xs.reverse.take n).reverse

/-- The theme state is coherent: exactly one of the two button classes is
present, and "on" goes with the root marker and with `aria-pressed="true"`. -/
def ThemeCoherent (s : State ν) : Prop :=
  (clsContains s.bwBtn.classList BTN_ON = true ↔ ¬ clsContains s.bwBtn.classList BTN_OFF = true) ∧
  (clsContains s.bwBtn.classList BTN_ON = true ↔ clsContains s.rootClasses BW = true) ∧
  (clsContains s.rootClasses BW = true ↔ s.bwBtn.ariaPressed = utf16 "true")

end Model

/-! ## A concrete runtime for worked examples

Numbers are integers (epoch milliseconds). -/

/-- JSON text of a string without control characters. -/
def quote (s : JSString) : JSString :=
  [34] ++ s.flatMap (fun c => if c = 34 then [92, 34] else if c = 92 then [92, 92] else [c])
    ++ [34]

/-- Decimal digits of a natural number. -/
def digits (n : Nat) : JSString := (Nat.toDigits 10 n).map Char.toNat

/-- Decimal text of an integer. -/
def showInt (i : Int) : JSString :=
  match i with
  | .ofNat n => digits n
  | .negSucc n => 45 :: digits (n + 1)

mutual
/-- The function `JSON.stringify` on integer-valued data whose strings have no
control characters (`undefined`, which such data does not contain, prints as
it does inside an array). -/
def stringifyVal : JSVal Int → JSString
  | .undefined => utf16 "null"
  | .null => utf16 "null"
  | .bool true => utf16 "true"
  | .bool false => utf16 "false"
  | .num x => showInt x
  | .str s => quote s
  | .arr xs => [91] ++ stringifyElems xs ++ [93]
  | .obj ps => [123] ++ stringifyProps ps ++ [125]
/-- Elements of an array, comma separated. -/
def stringifyElems : List (JSVal Int) → JSString
  | [] => []
  | [v] => stringifyVal v
  | v :: vs => stringifyVal v ++ [44] ++ stringifyElems vs
/-- Properties of an object, comma separated. -/
def stringifyProps : List (JSString × JSVal Int) → JSString
  | [] => []
  | [(k, v)] => quote k ++ [58] ++ stringifyVal v
  | (k, v) :: ps => quote k ++ [58] ++ stringifyVal v ++ [44] ++ stringifyProps ps
end

/-- A well-formed comment record as it sits in storage. -/
def storedRecord : JSVal Int :=
  .obj [(utf16 "name", .str (utf16 "Ann")), (utf16 "body", .str (utf16 "Hello world")),
    (utf16 "ts", .num 0)]

/-- A stored array of 201 well-formed records. -/
def longList : List (JSVal Int) := List.replicate 201 storedRecord

/-- The JSON text of `longList`. -/
def LONG_TEXT : JSString := stringifyVal (.arr longList)

/-- The function `JSON.parse` restricted to the texts the examples keep in
storage: `[null]`, `{}`, `[]` and the text of `longList`. Every other text
counts as one that is not JSON; the examples use `oops`. -/
def sampleParse (raw : JSString) : Option (JSVal Int) :=
  if raw = utf16 "[null]" then some (.arr [.null])
  else if raw = utf16 "\x7b\x7d" then some (.obj [])
  else if raw = utf16 "[]" then some (.arr [])
  else if raw = LONG_TEXT then some (.arr longList)
  else none

mutual
/-- The conversion `String(v)` on integer-valued data: decimal digits for a
number, the joined elements for an array, `[object Object]` for an object,
and a `TypeError` for an object with an own `toString` property (which,
coming from JSON, is not callable). -/
def sampleToStr : JSVal Int → Except JSError JSString
  | .undefined => .ok (utf16 "undefined")
  | .null => .ok (utf16 "null")
  | .bool true => .ok (utf16 "true")
  | .bool false => .ok (utf16 "false")
  | .num x => .ok (showInt x)
  | .str s => .ok s
  | .arr xs => sampleJoin xs
  | .obj ps =>
    if ps.any (fun p => p.1 == utf16 "toString") then .error .TypeError
    else .ok (utf16 "[object Object]")
/-- The method `Array.prototype.join` with a comma: `null` and `undefined`
elements give the empty text. -/
def sampleJoin : List (JSVal Int) → Except JSError JSString
  | [] => .ok []
  | [v] =>
    match v with
    | .null => .ok []
    | .undefined => .ok []
    | v => sampleToStr v
  | v :: vs =>
    match v with
    | .null => (sampleJoin vs).map (fun t => 44 :: t)
    | .undefined => (sampleJoin vs).map (fun t => 44 :: t)
    | v =>
      match sampleToStr v with
      | .error e => .error e
      | .ok a => (sampleJoin vs).map (fun t => a ++ 44 :: t)
end

/-- The date text of the examples. The epoch milliseconds in decimal stand in
for the locale's rendering of a valid date; `undefined` and, by assumption,
texts, arrays and objects give `Invalid Date`. -/
def sampleDate : JSVal Int → Except JSError JSString
  | .num x => .ok (showInt x)
  | .null => .ok (showInt 0)
  | .bool true => .ok (showInt 1)
  | .bool false => .ok (showInt 0)
  | _ => .ok (utf16 "Invalid Date")

/-- The runtime of the examples. -/
def sampleRuntime : Runtime Int where
  parse := sampleParse
  parse_empty := rfl
  stringify := stringifyVal
  numTruthy := fun x => decide (x ≠ 0)
  toStr := sampleToStr
  dateLocale := sampleDate

/-- An empty `localStorage`. -/
def emptyStorage : Storage := fun _ => none

/-- The state once the widgets are built, on a page with nothing stored and no
class on the root. -/
def blankState : State Int where
  comments := []
  storage := emptyStorage
  rootClasses := []
  bwBtn := mkBtn false []
  listChildren := [.placeholder]
  inputName := []
  inputBody := []
  bodyFocused := false
  log := []

/-- The state in which the script leaves `blankState`'s page with working
storage: the theme preference loaded and the button class set. -/
def freshStart : State Int := initButton (loadPref true blankState)

/-- A store that holds only the comment text `raw`. -/
def storageWith (raw : JSString) : Storage :=
  Function.update emptyStorage COMMENTS_KEY (some raw)

/-! ## Facts about escaping -/

theorem utf16_amp : utf16 "&amp;" = [38, 97, 109, 112, 59] := by decide
theorem utf16_lt : utf16 "&lt;" = [38, 108, 116, 59] := by decide
theorem utf16_gt : utf16 "&gt;" = [38, 103, 116, 59] := by decide
theorem utf16_quot : utf16 "&quot;" = [38, 113, 117, 111, 116, 59] := by decide
theorem utf16_apos : utf16 "&#39;" = [38, 35, 51, 57, 59] := by decide

theorem replaceAll_append (c : Nat) (rep a b : JSString) :
    replaceAll c rep (a ++ b) = replaceAll c rep a ++ replaceAll c rep b := by
  simp [replaceAll, List.flatMap_append]

theorem escapeText_append (a b : JSString) :
    escapeText (a ++ b) = escapeText a ++ escapeText b := by
  simp [escapeText, replaceAll_append]

theorem escapeText_singleton (c : Nat) : escapeText [c] = escUnit c := by
  simp only [escapeText, escUnit, utf16_amp, utf16_lt, utf16_gt, utf16_quot, utf16_apos]
  by_cases h1 : c = 38
  · subst h1; simp [replaceAll]
  by_cases h2 : c = 60
  · subst h2; simp [replaceAll]
  by_cases h3 : c = 62
  · subst h3; simp [replaceAll]
  by_cases h4 : c = 34
  · subst h4; simp [replaceAll]
  by_cases h5 : c = 39
  · subst h5; simp [replaceAll]
  simp [replaceAll, h1, h2, h3, h4, h5]

theorem escapeText_nil : escapeText [] = [] := by
  simp [escapeText, replaceAll]

theorem escapeText_cons (c : Nat) (s : JSString) :
    escapeText (c :: s) = escUnit c ++ escapeText s := by
  have h : c :: s = [c] ++ s := rfl
  rw [h, escapeText_append, escapeText_singleton]

theorem escUnit_length_pos (c : Nat) : 1 ≤ (escUnit c).length := by
  unfold escUnit
  simp only [utf16_amp, utf16_lt, utf16_gt, utf16_quot, utf16_apos]
  split_ifs <;> simp

theorem decodeFuel_escUnit (c : Nat) (r : JSString) (fuel : Nat) :
    decodeFuel (fuel + 1) (escUnit c ++ r) = c :: decodeFuel fuel r := by
  simp only [escUnit, utf16_amp, utf16_lt, utf16_gt, utf16_quot, utf16_apos]
  by_cases h1 : c = 38
  · subst h1; simp [decodeFuel, utf16_amp]
  by_cases h2 : c = 60
  · subst h2; simp [decodeFuel, utf16_amp, utf16_lt]
  by_cases h3 : c = 62
  · subst h3; simp [decodeFuel, utf16_amp, utf16_lt, utf16_gt]
  by_cases h4 : c = 34
  · subst h4; simp [decodeFuel, utf16_amp, utf16_lt, utf16_gt, utf16_quot]
  by_cases h5 : c = 39
  · subst h5; simp [decodeFuel, utf16_amp, utf16_lt, utf16_gt, utf16_quot, utf16_apos]
  have h0 : ¬ (38 = c) := fun h => h1 h.symm
  simp [decodeFuel, utf16_amp, utf16_lt, utf16_gt, utf16_quot, utf16_apos, h1, h2, h3, h4, h5, h0]

theorem decodeFuel_escapeText (s : JSString) :
    ∀ fuel, s.length ≤ fuel → decodeFuel fuel (escapeText s) = s := by
  induction s with
  | nil => intro fuel _; cases fuel <;> simp [escapeText_nil, decodeFuel]
  | cons c s ih =>
    intro fuel h
    cases fuel with
    | zero => simp at h
    | succ f =>
      rw [escapeText_cons, decodeFuel_escUnit, ih f (by simpa using h)]


theorem escapeText_length_ge (s : JSString) : s.length ≤ (escapeText s).length := by
  induction s with
  | nil => simp
  | cons c s ih =>
    rw [escapeText_cons, List.length_append, List.length_cons]
    have := escUnit_length_pos c
    omega

theorem decode_escapeText (s : JSString) : decodeEntities (escapeText s) = s :=
  decodeFuel_escapeText s _ (escapeText_length_ge s)

theorem escUnit_clean (c : Nat) : ∀ x ∈ escUnit c, x ≠ 60 ∧ x ≠ 62 ∧ x ≠ 34 ∧ x ≠ 39 := by
  unfold escUnit
  simp only [utf16_amp, utf16_lt, utf16_gt, utf16_quot, utf16_apos]
  split_ifs <;> simp
  omega

theorem escapeText_clean (s : JSString) :
    ∀ x ∈ escapeText s, x ≠ 60 ∧ x ≠ 62 ∧ x ≠ 34 ∧ x ≠ 39 := by
  induction s with
  | nil => simp [escapeText_nil]
  | cons c s ih =>
    intro x hx
    rw [escapeText_cons, List.mem_append] at hx
    rcases hx with hx | hx
    · exact escUnit_clean c x hx
    · exact ih x hx

theorem ampStartsEntity_shift (e r : JSString) (h : AmpStartsEntity r) (i : Nat)
    (hi : (e ++ r)[e.length + i]? = some 38) :
    ∃ x ∈ entities, x <+: (e ++ r).drop (e.length + i) := by
  have h1 : (e ++ r)[e.length + i]? = r[i]? := by
    rw [List.getElem?_append_right (by omega)]; simp
  have h2 : (e ++ r).drop (e.length + i) = r.drop i := by
    rw [List.drop_append_eq_append_drop]; simp
  rw [h2]; exact h i (h1 ▸ hi)

theorem ampStartsEntity_entity (e r : JSString) (he : e ∈ entities)
    (h38 : ∀ j, 0 < j → e[j]? ≠ some 38) (h : AmpStartsEntity r) :
    AmpStartsEntity (e ++ r) := by
  intro i hi
  by_cases hlt : i < e.length
  · rcases Nat.eq_zero_or_pos i with h0 | hpos
    · subst h0; exact ⟨e, he, by simp⟩
    · rw [List.getElem?_append_left hlt] at hi
      exact absurd hi (h38 i hpos)
  · obtain ⟨k, rfl⟩ : ∃ k, i = e.length + k := ⟨i - e.length, by omega⟩
    exact ampStartsEntity_shift e r h k hi

theorem ampStartsEntity_plain (c : Nat) (r : JSString) (hc : c ≠ 38) (h : AmpStartsEntity r) :
    AmpStartsEntity ([c] ++ r) := by
  intro i hi
  rcases i with _ | k
  · simp at hi; exact absurd hi hc
  · have := ampStartsEntity_shift [c] r h k (by simpa [Nat.add_comm] using hi)
    simpa [Nat.add_comm] using this

theorem no_amp_inside (e : JSString) (he : e ∈ entities) :
    ∀ j, 0 < j → e[j]? ≠ some 38 := by
  simp only [entities, utf16_amp, utf16_lt, utf16_gt, utf16_quot, utf16_apos,
    List.mem_cons, List.mem_singleton, List.not_mem_nil, or_false] at he
  intro j hj
  rcases he with rfl | rfl | rfl | rfl | rfl <;>
    (rcases j with _ | _ | _ | _ | _ | _ | j <;> simp at hj ⊢)

theorem escUnit_cases (c : Nat) : escUnit c ∈ entities ∨ (escUnit c = [c] ∧ c ≠ 38) := by
  unfold escUnit entities
  split_ifs with h1 h2 h3 h4 h5 <;> simp [h1]

theorem ampStartsEntity_escUnit (c : Nat) (r : JSString) (h : AmpStartsEntity r) :
    AmpStartsEntity (escUnit c ++ r) := by
  rcases escUnit_cases c with he | ⟨he, hc⟩
  · exact ampStartsEntity_entity _ r he (no_amp_inside _ he) h
  · rw [he]; exact ampStartsEntity_plain c r hc h

theorem ampStartsEntity_escapeText (s : JSString) : AmpStartsEntity (escapeText s) := by
  induction s with
  | nil => intro i hi; simp [escapeText_nil] at hi
  | cons c s ih => rw [escapeText_cons]; exact ampStartsEntity_escUnit c _ ih

/-! ## Facts about the comment board -/

section Board

variable {ν : Type}

theorem orEmpty_eq (s : JSString) : orEmpty s = s := by
  unfold orEmpty; split_ifs with h <;> simp [h]

theorem lastN_eq_drop {α : Type} (n : Nat) (xs : List α) :
    lastN n xs = xs.drop (xs.length - n) := by
  unfold lastN
  rw [List.take_reverse, List.reverse_reverse]

theorem lastN_of_length_le {α : Type} (n : Nat) (xs : List α) (h : xs.length ≤ n) :
    lastN n xs = xs := by
  rw [lastN_eq_drop, Nat.sub_eq_zero_of_le h, List.drop_zero]

theorem lastN_length_le {α : Type} (n : Nat) (xs : List α) : (lastN n xs).length ≤ n := by
  rw [lastN_eq_drop, List.length_drop]; omega

/-- The truncation step of the submit handler keeps the last 200. -/
theorem truncate_eq_lastN (xs : List (JSVal ν)) :
    (if xs.length > 200 then sliceLast 200 xs else xs) = lastN 200 xs := by
  split_ifs with h
  · rw [lastN_eq_drop]; rfl
  · rw [lastN_of_length_le _ _ (by omega)]

theorem renderComments_fst (rt : Runtime ν) (s : State ν) :
    ∃ kids, (renderComments rt s).1 = { s with listChildren := kids } := by
  unfold renderComments
  split_ifs
  · exact ⟨_, rfl⟩
  · exact ⟨_, rfl⟩

theorem saveComments_eq (rt : Runtime ν) (w : Bool) (arr : List (JSVal ν)) (s : State ν) :
    saveComments rt w arr s =
      { s with
        storage :=
          if w then Function.update s.storage COMMENTS_KEY (some (rt.stringify (.arr arr)))
          else s.storage
        log := s.log ++ [.setItem COMMENTS_KEY (rt.stringify (.arr arr)) w] } := by
  cases w <;> rfl

/-- What an accepted submission leaves in the list, the store and the log. -/
theorem submitHandler_accept (rt : Runtime ν) (now : ν) (w : Bool) (s : State ν)
    (h : 2 ≤ (trim s.inputBody).length) :
    let kept := lastN 200 (s.comments ++ [mkEntry (trim s.inputName) (trim s.inputBody) now])
    (submitHandler rt now w s).1.comments = kept ∧
    (submitHandler rt now w s).1.storage =
      (if w then Function.update s.storage COMMENTS_KEY (some (rt.stringify (.arr kept)))
        else s.storage) ∧
    (submitHandler rt now w s).1.log =
      s.log ++ [.setItem COMMENTS_KEY (rt.stringify (.arr kept)) w] ∧
    (submitHandler rt now w s).1.rootClasses = s.rootClasses ∧
    (submitHandler rt now w s).1.bwBtn = s.bwBtn := by
  intro kept
  have hne : ((trim s.inputBody).isEmpty || decide ((trim s.inputBody).length < 2)) = false := by
    have h1 : (trim s.inputBody).isEmpty = false := by
      cases hb : trim s.inputBody with
      | nil => rw [hb] at h; simp at h
      | cons a l => rfl
    have h2 : decide ((trim s.inputBody).length < 2) = false := by
      simp; omega
    rw [h1, h2]; rfl
  unfold submitHandler
  simp only [orEmpty_eq, hne, Bool.false_eq_true, if_false, truncate_eq_lastN, saveComments_eq]
  obtain ⟨kids, hk⟩ := renderComments_fst rt
    { s with
      comments := kept
      storage :=
        if w then Function.update s.storage COMMENTS_KEY (some (rt.stringify (.arr kept)))
        else s.storage
      log := s.log ++ [.setItem COMMENTS_KEY (rt.stringify (.arr kept)) w] }
  generalize hr : renderComments rt _ = r at hk
  rcases r with ⟨s2, _ | e⟩
  · simp only at hk ⊢
    subst hk
    exact ⟨rfl, rfl, rfl, rfl, rfl⟩
  · simp only at hk ⊢
    subst hk
    exact ⟨rfl, rfl, rfl, rfl, rfl⟩

/-- A rejected submission only moves the focus. -/
theorem submitHandler_reject (rt : Runtime ν) (now : ν) (w : Bool) (s : State ν)
    (h : (trim s.inputBody).length ≤ 1) :
    submitHandler rt now w s = ({ s with bodyFocused := true }, none) := by
  have hne : ((trim s.inputBody).isEmpty || decide ((trim s.inputBody).length < 2)) = true := by
    have h2 : decide ((trim s.inputBody).length < 2) = true := by
      simp; omega
    rw [h2]; simp
  unfold submitHandler
  simp only [orEmpty_eq, hne, if_true]

theorem dropWhile_eq_nil_of_all {α : Type} (p : α → Bool) (l : List α)
    (h : ∀ x ∈ l, p x = true) : l.dropWhile p = [] := by
  induction l with
  | nil => rfl
  | cons a l ih =>
    have ha := h a (List.mem_cons_self a l)
    simp only [List.dropWhile, ha]
    exact ih (fun x hx => h x (List.mem_cons_of_mem a hx))

/-- Whitespace-only text trims to the empty string. -/
theorem trim_whitespace_only (b : JSString) (h : ∀ c ∈ b, isTrimUnit c = true) :
    trim b = [] := by
  unfold trim
  rw [dropWhile_eq_nil_of_all _ _ h]
  rfl

end Board

/-! ## Facts about the theme toggle -/

section Theme

variable {ν : Type}

theorem clsContains_iff (cl : List JSString) (t : JSString) :
    clsContains cl t = true ↔ t ∈ cl := by
  simp [clsContains]

theorem mem_clsAdd (cl : List JSString) (t u : JSString) :
    u ∈ clsAdd cl t ↔ u ∈ cl ∨ u = t := by
  unfold clsAdd
  split_ifs with h
  · constructor
    · intro hu; exact Or.inl hu
    · rintro (hu | rfl)
      · exact hu
      · simpa using h
  · simp

theorem mem_clsRemove (cl : List JSString) (t u : JSString) :
    u ∈ clsRemove cl t ↔ u ∈ cl ∧ u ≠ t := by
  simp [clsRemove]

theorem BTN_ON_ne_OFF : BTN_ON ≠ BTN_OFF := by decide

theorem true_ne_false_text : utf16 "false" ≠ utf16 "true" := by decide

theorem persistBW_theme (e w : Bool) (s : State ν) :
    (persistBW e w s).rootClasses = s.rootClasses ∧ (persistBW e w s).bwBtn = s.bwBtn ∧
    (persistBW e w s).comments = s.comments := by
  cases w <;> exact ⟨rfl, rfl, rfl⟩

theorem persistBW_storage (e w : Bool) (s : State ν) :
    (persistBW e w s).storage LS_KEY =
      if w then some (if e then utf16 "1" else utf16 "0") else s.storage LS_KEY := by
  cases w
  · rfl
  · simp [persistBW, setItem]

/-- The button shows "on" after `enabled = true` and "off" after `false`. -/
theorem coherent_of_set (s : State ν) (e : Bool)
    (hroot : BW ∈ s.rootClasses ↔ e = true)
    (haria : s.bwBtn.ariaPressed = if e then utf16 "true" else utf16 "false")
    (hon : BTN_ON ∈ s.bwBtn.classList ↔ e = true)
    (hoff : BTN_OFF ∈ s.bwBtn.classList ↔ e = false) : ThemeCoherent s := by
  unfold ThemeCoherent
  simp only [clsContains_iff]
  cases e
  · simp at hroot haria hon hoff
    simp [hroot, haria, hon, hoff, true_ne_false_text]
  · simp at hroot haria hon hoff
    simp [hroot, haria, hon, hoff]

theorem applyBW_coherent (e p w : Bool) (s : State ν) : ThemeCoherent (applyBW e p w s) := by
  have key : ∀ s1 : State ν, ThemeCoherent s1 →
      ThemeCoherent (if p = true then persistBW e w s1 else s1) := by
    intro s1 h1
    split_ifs
    · obtain ⟨hr, hb, _⟩ := persistBW_theme e w s1
      unfold ThemeCoherent; rw [hr, hb]; exact h1
    · exact h1
  unfold applyBW
  apply key
  cases e
  · apply coherent_of_set _ false
    · simp [mem_clsRemove]
    · rfl
    · simp [mem_clsAdd, mem_clsRemove, BTN_ON_ne_OFF]
    · simp [mem_clsAdd]
  · apply coherent_of_set _ true
    · simp [mem_clsAdd]
    · rfl
    · simp [mem_clsAdd]
    · simp [mem_clsAdd, mem_clsRemove, BTN_ON_ne_OFF.symm]

/-- The click listener does what `applyBW` does for the flipped root state. -/
theorem clickHandler_eq (w : Bool) (s : State ν) :
    clickHandler w s = applyBW (!clsContains s.rootClasses BW) true w s := by
  unfold clickHandler applyBW clsToggle clsContains
  cases h : s.rootClasses.contains BW <;> simp [h]

theorem clickHandler_coherent (w : Bool) (s : State ν) : ThemeCoherent (clickHandler w s) := by
  rw [clickHandler_eq]; exact applyBW_coherent _ _ _ _

theorem applyBW_root (e p w : Bool) (s : State ν) :
    clsContains (applyBW e p w s).rootClasses BW = e := by
  have key : ∀ s1 : State ν,
      (if p = true then persistBW e w s1 else s1).rootClasses = s1.rootClasses := by
    intro s1; split_ifs
    · exact (persistBW_theme e w s1).1
    · rfl
  unfold applyBW
  rw [key]
  cases e
  · simp only [Bool.false_eq_true, if_false]
    rw [Bool.eq_false_iff]; intro h
    rw [clsContains_iff, mem_clsRemove] at h; exact h.2 rfl
  · simp only [if_true]
    rw [clsContains_iff, mem_clsAdd]; exact Or.inr rfl

theorem applyBW_storage (e w : Bool) (s : State ν) :
    (applyBW e true w s).storage LS_KEY =
      if w then some (if e then utf16 "1" else utf16 "0") else s.storage LS_KEY := by
  unfold applyBW
  simp only [if_true]
  rw [persistBW_storage]
  cases e <;> rfl

theorem initButton_coherent (s : State ν) (h : ThemeCoherent s) : ThemeCoherent (initButton s) := by
  obtain ⟨h1, h2, h3⟩ := h
  simp only [clsContains_iff] at h1 h2 h3
  unfold initButton
  split_ifs with hc
  · rw [clsContains_iff] at hc
    have hon : BTN_ON ∈ s.bwBtn.classList := h2.mpr hc
    unfold ThemeCoherent
    simp only [clsContains_iff, mem_clsAdd]
    refine ⟨?_, ?_, h3⟩
    · constructor
      · intro _ hoff
        rcases hoff with hoff | hoff
        · exact (h1.mp hon) hoff
        · exact BTN_ON_ne_OFF hoff.symm
      · intro _; exact Or.inl hon
    · constructor
      · intro _; exact hc
      · intro _; exact Or.inl hon
  · rw [clsContains_iff] at hc
    have hon : BTN_ON ∉ s.bwBtn.classList := fun h => hc (h2.mp h)
    have hoff : BTN_OFF ∈ s.bwBtn.classList := by
      by_contra hx; exact hon (h1.mpr hx)
    unfold ThemeCoherent
    simp only [clsContains_iff, mem_clsAdd]
    refine ⟨?_, ?_, h3⟩
    · constructor
      · rintro (h | h)
        · exact absurd h hon
        · exact absurd h BTN_ON_ne_OFF
      · intro hx; exact absurd (Or.inl hoff) hx
    · constructor
      · rintro (h | h)
        · exact absurd h hon
        · exact absurd h BTN_ON_ne_OFF
      · intro hx; exact absurd hx hc

theorem loadPref_coherent (r : Bool) (s : State ν) : ThemeCoherent (loadPref r s) := by
  unfold loadPref
  split
  · split_ifs <;> exact applyBW_coherent _ _ _ _
  · exact applyBW_coherent _ _ _ _

end Theme

/-! ## Facts about sequences of actions -/

section Runs

variable {ν : Type}

theorem renderComments_theme (rt : Runtime ν) (s : State ν) :
    (renderComments rt s).1.rootClasses = s.rootClasses ∧
    (renderComments rt s).1.bwBtn = s.bwBtn ∧
    (renderComments rt s).1.comments = s.comments ∧
    (renderComments rt s).1.storage = s.storage ∧
    (renderComments rt s).1.log = s.log := by
  obtain ⟨kids, hk⟩ := renderComments_fst rt s
  rw [hk]; exact ⟨rfl, rfl, rfl, rfl, rfl⟩

theorem submitHandler_theme (rt : Runtime ν) (now : ν) (w : Bool) (s : State ν) :
    (submitHandler rt now w s).1.rootClasses = s.rootClasses ∧
    (submitHandler rt now w s).1.bwBtn = s.bwBtn := by
  by_cases hb : 2 ≤ (trim s.inputBody).length
  · exact (submitHandler_accept rt now w s hb).2.2.2
  · rw [submitHandler_reject rt now w s (by omega)]
    exact ⟨rfl, rfl⟩

theorem submitHandler_length (rt : Runtime ν) (now : ν) (w : Bool) (s : State ν)
    (h : s.comments.length ≤ 200) : (submitHandler rt now w s).1.comments.length ≤ 200 := by
  by_cases hb : 2 ≤ (trim s.inputBody).length
  · rw [(submitHandler_accept rt now w s hb).1]
    exact lastN_length_le _ _
  · rw [submitHandler_reject rt now w s (by omega)]
    exact h

/-- The clear listener, case by case. -/
theorem clearHandler_eq (rt : Runtime ν) (a w : Bool) (s : State ν) :
    clearHandler rt a w s =
      if s.comments.length = 0 then (s, none)
      else if a then
        ({ s with
            comments := []
            storage :=
              if w then Function.update s.storage COMMENTS_KEY (some (rt.stringify (.arr [])))
              else s.storage
            listChildren := [.placeholder]
            log := s.log ++ [.confirm, .setItem COMMENTS_KEY (rt.stringify (.arr [])) w] }, none)
      else ({ s with log := s.log ++ [.confirm] }, none) := by
  unfold clearHandler
  by_cases h0 : s.comments.length = 0
  · simp only [h0, if_true]
  · simp only [h0, if_false]
    cases a
    · rfl
    · simp [saveComments_eq, renderComments]

theorem clearHandler_theme (rt : Runtime ν) (a w : Bool) (s : State ν) :
    (clearHandler rt a w s).1.rootClasses = s.rootClasses ∧
    (clearHandler rt a w s).1.bwBtn = s.bwBtn := by
  rw [clearHandler_eq]
  split_ifs <;> exact ⟨rfl, rfl⟩

theorem clearHandler_length (rt : Runtime ν) (a w : Bool) (s : State ν)
    (h : s.comments.length ≤ 200) : (clearHandler rt a w s).1.comments.length ≤ 200 := by
  rw [clearHandler_eq]
  split_ifs <;> first | exact h | exact Nat.zero_le _

theorem applyBW_comments (e p w : Bool) (s : State ν) :
    (applyBW e p w s).comments = s.comments := by
  unfold applyBW
  split_ifs
  · exact (persistBW_theme _ _ _).2.2
  · rfl
  · exact (persistBW_theme _ _ _).2.2
  · rfl

theorem step_length (rt : Runtime ν) (s : State ν) (a : Action ν)
    (h : s.comments.length ≤ 200) : (step rt s a).comments.length ≤ 200 := by
  cases a with
  | submit n b now w => exact submitHandler_length rt now w _ h
  | clearAll a w => exact clearHandler_length rt a w s h
  | click w =>
    show (clickHandler w s).comments.length ≤ 200
    rw [clickHandler_eq, applyBW_comments]; exact h
  | applyBW e p w =>
    show (applyBW e p w s).comments.length ≤ 200
    rw [applyBW_comments]; exact h

theorem run_length (rt : Runtime ν) (acts : List (Action ν)) :
    ∀ s : State ν, s.comments.length ≤ 200 → (run rt s acts).comments.length ≤ 200 := by
  induction acts with
  | nil => intro s h; exact h
  | cons a acts ih => intro s h; exact ih _ (step_length rt s a h)

theorem coherent_congr (s t : State ν) (hr : t.rootClasses = s.rootClasses)
    (hb : t.bwBtn = s.bwBtn) (h : ThemeCoherent s) : ThemeCoherent t := by
  unfold ThemeCoherent at h ⊢; rw [hr, hb]; exact h

theorem step_coherent (rt : Runtime ν) (s : State ν) (a : Action ν)
    (h : ThemeCoherent s) : ThemeCoherent (step rt s a) := by
  cases a with
  | submit n b now w =>
    have ht := submitHandler_theme rt now w { s with inputName := n, inputBody := b }
    exact coherent_congr s _ ht.1 ht.2 h
  | clearAll a w =>
    have ht := clearHandler_theme rt a w s
    exact coherent_congr s _ ht.1 ht.2 h
  | click w => exact clickHandler_coherent w s
  | applyBW e p w => exact applyBW_coherent e p w s

theorem run_coherent (rt : Runtime ν) (acts : List (Action ν)) :
    ∀ s : State ν, ThemeCoherent s → ThemeCoherent (run rt s acts) := by
  induction acts with
  | nil => intro s h; exact h
  | cons a acts ih => intro s h; exact ih _ (step_coherent rt s a h)

/-- A start-up that completes ends with `initButton (loadPref ...)` on a state
whose comments are the loaded list. -/
theorem startup_ok (rt : Runtime ν) (rc rp : Bool) (st : Storage) (root : List JSString)
    (s : State ν) (h : startup rt rc rp st root = .ok s) :
    ∃ s1 : State ν, s = initButton (loadPref rp s1) ∧ loadComments rt rc st = .ok s1.comments := by
  unfold startup at h
  split at h
  · cases h
  · rename_i cs hcs
    simp only at h
    split at h
    · cases h
    · rename_i s1 hs1
      have hc := (renderComments_theme rt
        { comments := cs, storage := st, rootClasses := root, bwBtn := mkBtn false [],
          listChildren := [.placeholder], inputName := [], inputBody := [],
          bodyFocused := false, log := [] }).2.2.1
      rw [hs1] at hc
      simp only at hc
      have : s = initButton (loadPref rp s1) := by
        injection h with h; exact h.symm
      exact ⟨s1, this, by rw [hcs, hc]⟩

theorem loadPref_comments (r : Bool) (s : State ν) : (loadPref r s).comments = s.comments := by
  unfold loadPref
  split
  · split_ifs <;> exact applyBW_comments _ _ _ _
  · exact applyBW_comments _ _ _ _

theorem initButton_comments (s : State ν) : (initButton s).comments = s.comments := by
  unfold initButton; split_ifs <;> rfl

/-- The result of `loadComments`, case by case. -/
theorem loadComments_eq (rt : Runtime ν) (readOk : Bool) (st : Storage) :
    loadComments rt readOk st =
      .ok (if readOk then
            match st COMMENTS_KEY with
            | none => []
            | some raw =>
              match rt.parse raw with
              | some (.arr xs) => xs
              | _ => []
          else []) := by
  unfold loadComments tryCatch loadCommentsTry getItem
  cases readOk
  · rfl
  · simp only [if_true]
    cases hst : st COMMENTS_KEY with
    | none => rfl
    | some raw =>
      simp only
      cases raw with
      | nil => simp [rt.parse_empty]
      | cons c r =>
        simp only [List.isEmpty_cons, Bool.false_eq_true, if_false]
        cases hp : rt.parse (c :: r) with
        | none => rfl
        | some v => cases v <;> rfl

theorem renderLoop_replicate (rt : Runtime ν) (c : JSVal ν) (n : Node)
    (h : renderItem rt c = .ok n) :
    ∀ (k : Nat) (acc : List Node), (renderLoop rt (List.replicate k c) acc).2 = none := by
  intro k
  induction k with
  | zero => intro acc; rfl
  | succ k ih =>
    intro acc
    rw [List.replicate_succ, renderLoop, h]
    exact ih _

/-- A start-up whose rendering raises nothing completes with the loaded list. -/
theorem startup_of_render_ok (rt : Runtime ν) (rc rp : Bool) (st : Storage)
    (root : List JSString) (cs : List (JSVal ν)) (hl : loadComments rt rc st = .ok cs)
    (hr : (renderComments rt
      { comments := cs, storage := st, rootClasses := root, bwBtn := mkBtn false [],
        listChildren := [.placeholder], inputName := [], inputBody := [],
        bodyFocused := false, log := [] }).2 = none) :
    ∃ s, startup rt rc rp st root = .ok s ∧ s.comments = cs := by
  have hc := (renderComments_theme rt
    { comments := cs, storage := st, rootClasses := root, bwBtn := mkBtn false [],
      listChildren := [.placeholder], inputName := [], inputBody := [],
      bodyFocused := false, log := [] }).2.2.1
  unfold startup
  rw [hl]
  simp only
  generalize renderComments rt _ = r at hr hc
  rcases r with ⟨s1, e⟩
  simp only at hr hc
  subst hr
  exact ⟨_, rfl, by rw [initButton_comments, loadPref_comments, hc]⟩

theorem longList_length : longList.length = 201 := by
  rw [longList, List.length_replicate]

theorem storageWith_get (raw : JSString) : storageWith raw COMMENTS_KEY = some raw := by
  simp [storageWith]

theorem loadComments_of_parse (rt : Runtime ν) (st : Storage) (raw : JSString)
    (xs : List (JSVal ν)) (h1 : st COMMENTS_KEY = some raw)
    (h2 : rt.parse raw = some (.arr xs)) : loadComments rt true st = .ok xs := by
  rw [loadComments_eq, h1]
  simp only [h2, if_true]

theorem sampleParse_long : sampleParse LONG_TEXT = some (.arr longList) := by
  have h1 : LONG_TEXT ≠ utf16 "[null]" := by decide
  have h2 : LONG_TEXT ≠ utf16 "\x7b\x7d" := by decide
  have h3 : LONG_TEXT ≠ utf16 "[]" := by decide
  delta sampleParse
  rw [if_neg h1, if_neg h2, if_neg h3, if_pos rfl]

theorem sampleRuntime_parse (raw : JSString) : sampleRuntime.parse raw = sampleParse raw := rfl

theorem loadComments_long :
    loadComments sampleRuntime true (storageWith LONG_TEXT) = .ok longList :=
  loadComments_of_parse sampleRuntime (storageWith LONG_TEXT) LONG_TEXT longList
    (storageWith_get LONG_TEXT) ((sampleRuntime_parse LONG_TEXT).trans sampleParse_long)

end Runs

/-! ## The claims -/

section Claims

variable {ν : Type}

/-- C1: with a body whose trimmed form has at least 2 code units, the submit
handler leaves as in-memory list the last 200 elements of the old list
followed by the entry `{name: trim(n), body: trim(b), ts: now}`; when the
storage write succeeds the stored text is the serialisation of that list; and
when the old list has fewer than 200 entries the new list is exactly the old
one followed by the entry. -/
theorem submit_appends_trimmed_entry (rt : Runtime ν) (now : ν) (w : Bool) (s : State ν)
    (n b : JSString) (hb : 2 ≤ (trim b).length) :
    (submitHandler rt now w { s with inputName := n, inputBody := b }).1.comments =
        lastN 200 (s.comments ++
          [.obj [(utf16 "name", .str (trim n)), (utf16 "body", .str (trim b)),
            (utf16 "ts", .num now)]]) ∧
    (w = true →
      (submitHandler rt now w { s with inputName := n, inputBody := b }).1.storage COMMENTS_KEY =
        some (rt.stringify (.arr (lastN 200 (s.comments ++
          [.obj [(utf16 "name", .str (trim n)), (utf16 "body", .str (trim b)),
            (utf16 "ts", .num now)]]))))) ∧
    (s.comments.length < 200 →
      (submitHandler rt now w { s with inputName := n, inputBody := b }).1.comments =
        s.comments ++
          [.obj [(utf16 "name", .str (trim n)), (utf16 "body", .str (trim b)),
            (utf16 "ts", .num now)]]) := by
  have h := submitHandler_accept rt now w { s with inputName := n, inputBody := b } hb
  simp only [mkEntry, orEmpty_eq] at h
  refine ⟨h.1, ?_, ?_⟩
  · intro hw
    rw [h.2.1, hw]
    simp
  · intro hlen
    rw [h.1, lastN_of_length_le]
    simp only [List.length_append, List.length_singleton]
    omega

/-- C1, at the spec's example: name " Ann " and body " Hello world " on an
empty board. -/
theorem submit_appends_trimmed_entry_witness :
    2 ≤ (trim (utf16 " Hello world ")).length ∧
    (submitHandler sampleRuntime 1700000000000 true
        { blankState with inputName := utf16 " Ann ", inputBody := utf16 " Hello world " }).1.comments =
      [.obj [(utf16 "name", .str (utf16 "Ann")), (utf16 "body", .str (utf16 "Hello world")),
        (utf16 "ts", .num 1700000000000)]] ∧
    (submitHandler sampleRuntime 1700000000000 true
        { blankState with inputName := utf16 " Ann ", inputBody := utf16 " Hello world " }).1.storage
        COMMENTS_KEY =
      some (utf16 "[\x7b\"name\":\"Ann\",\"body\":\"Hello world\",\"ts\":1700000000000\x7d]") :=
  ⟨by decide,
    (submit_appends_trimmed_entry sampleRuntime 1700000000000 true blankState (utf16 " Ann ")
      (utf16 " Hello world ") (by decide)).2.2 (by decide),
    (submit_appends_trimmed_entry sampleRuntime 1700000000000 true blankState (utf16 " Ann ")
      (utf16 " Hello world ") (by decide)).2.1 rfl⟩

/-- C2: with a body whose trimmed form has length 0 or 1 (whitespace-only
input included), whatever the name, the submit handler leaves the in-memory
list and the whole store unchanged, attempts no write, leaves the rendered
list as it is and raises nothing. -/
theorem short_body_changes_nothing (rt : Runtime ν) (now : ν) (w : Bool) (s : State ν)
    (n b : JSString) (hb : (trim b).length ≤ 1 ∨ ∀ c ∈ b, isTrimUnit c = true) :
    (submitHandler rt now w { s with inputName := n, inputBody := b }).1.comments = s.comments ∧
    (submitHandler rt now w { s with inputName := n, inputBody := b }).1.storage = s.storage ∧
    (submitHandler rt now w { s with inputName := n, inputBody := b }).1.log = s.log ∧
    (submitHandler rt now w { s with inputName := n, inputBody := b }).1.listChildren =
      s.listChildren ∧
    (submitHandler rt now w { s with inputName := n, inputBody := b }).2 = none := by
  have hlen : (trim b).length ≤ 1 := by
    rcases hb with h | h
    · exact h
    · rw [trim_whitespace_only b h]; exact Nat.zero_le _
  rw [submitHandler_reject rt now w { s with inputName := n, inputBody := b } hlen]
  exact ⟨rfl, rfl, rfl, rfl, rfl⟩

/-- C2, at a one-letter body and at a blank body. -/
theorem short_body_changes_nothing_witness :
    ((trim (utf16 " x ")).length ≤ 1 ∨ ∀ c ∈ utf16 " x ", isTrimUnit c = true) ∧
    ((trim (utf16 " \n\t")).length ≤ 1 ∨ ∀ c ∈ utf16 " \n\t", isTrimUnit c = true) ∧
    (submitHandler sampleRuntime 5 true
        { freshStart with inputName := utf16 "Ann", inputBody := utf16 " x " }).1.storage =
      freshStart.storage ∧
    (submitHandler sampleRuntime 5 true
        { freshStart with inputName := utf16 "Ann", inputBody := utf16 " \n\t" }).1.comments =
      freshStart.comments :=
  ⟨Or.inl (by decide), Or.inr (by decide),
    (short_body_changes_nothing sampleRuntime 5 true freshStart (utf16 "Ann") (utf16 " x ")
      (Or.inl (by decide))).2.1,
    (short_body_changes_nothing sampleRuntime 5 true freshStart (utf16 "Ann") (utf16 " \n\t")
      (Or.inr (by decide))).1⟩

/-- C6: the clear-all handler returns the state as it is, confirmation not
asked and no write attempted, when the list is empty; only notes the
confirmation when the list is non-empty and the user declines; and, when the
list is non-empty and the user confirms, empties the in-memory list, issues the
write of the serialised empty list (stored when the store accepts it), shows
the placeholder and raises nothing. -/
theorem clear_all_cases (rt : Runtime ν) (a w : Bool) (s : State ν) :
    (s.comments = [] → clearHandler rt a w s = (s, none)) ∧
    (s.comments ≠ [] → a = false →
      clearHandler rt a w s = ({ s with log := s.log ++ [.confirm] }, none)) ∧
    (s.comments ≠ [] → a = true →
      (clearHandler rt a w s).1.comments = [] ∧
      (clearHandler rt a w s).1.log =
        s.log ++ [.confirm, .setItem COMMENTS_KEY (rt.stringify (.arr [])) w] ∧
      (clearHandler rt a w s).1.storage =
        (if w then Function.update s.storage COMMENTS_KEY (some (rt.stringify (.arr [])))
          else s.storage) ∧
      (clearHandler rt a w s).1.listChildren = [.placeholder] ∧
      (clearHandler rt a w s).2 = none) := by
  refine ⟨?_, ?_, ?_⟩
  · intro h
    rw [clearHandler_eq, if_pos (by rw [h]; rfl)]
  · intro h ha
    have h0 : ¬ s.comments.length = 0 := fun hz => h (List.length_eq_zero.mp hz)
    rw [clearHandler_eq, if_neg h0, ha]
    rfl
  · intro h ha
    have h0 : ¬ s.comments.length = 0 := fun hz => h (List.length_eq_zero.mp hz)
    rw [clearHandler_eq, if_neg h0, ha]
    exact ⟨rfl, rfl, rfl, rfl, rfl⟩

/-- C6, on a board with one comment and on an empty board. -/
theorem clear_all_cases_witness :
    clearHandler sampleRuntime true true blankState = (blankState, none) ∧
    (clearHandler sampleRuntime false true { blankState with comments := [storedRecord] }).1.comments =
      [storedRecord] ∧
    (clearHandler sampleRuntime true true { blankState with comments := [storedRecord] }).1.comments =
      [] ∧
    (clearHandler sampleRuntime true true { blankState with comments := [storedRecord] }).1.storage
        COMMENTS_KEY = some (utf16 "[]") :=
  ⟨(clear_all_cases sampleRuntime true true blankState).1 rfl,
    congrArg (fun r => r.1.comments)
      ((clear_all_cases sampleRuntime false true
        { blankState with comments := [storedRecord] }).2.1 (List.cons_ne_nil _ _) rfl),
    ((clear_all_cases sampleRuntime true true
        { blankState with comments := [storedRecord] }).2.2 (List.cons_ne_nil _ _) rfl).1,
    congrFun ((clear_all_cases sampleRuntime true true
        { blankState with comments := [storedRecord] }).2.2 (List.cons_ne_nil _ _) rfl).2.2.1
      COMMENTS_KEY⟩

/-- C7: `loadComments` always returns a list: the empty list when reading
fails, when the key is absent, when the stored text is not JSON, and when it
parses to something that is not an array; the parsed array when the stored
text parses to an array. -/
theorem loadComments_never_raises (rt : Runtime ν) (readOk : Bool) (st : Storage) :
    (∃ xs, loadComments rt readOk st = .ok xs) ∧
    (readOk = false → loadComments rt readOk st = .ok []) ∧
    (st COMMENTS_KEY = none → loadComments rt readOk st = .ok []) ∧
    (∀ raw, st COMMENTS_KEY = some raw → rt.parse raw = none →
      loadComments rt readOk st = .ok []) ∧
    (∀ raw v, st COMMENTS_KEY = some raw → rt.parse raw = some v → (∀ xs, v ≠ .arr xs) →
      loadComments rt readOk st = .ok []) ∧
    (∀ raw xs, readOk = true → st COMMENTS_KEY = some raw → rt.parse raw = some (.arr xs) →
      loadComments rt readOk st = .ok xs) := by
  refine ⟨⟨_, loadComments_eq rt readOk st⟩, ?_, ?_, ?_, ?_, ?_⟩
  · intro h; rw [loadComments_eq, h]; rfl
  · intro h; rw [loadComments_eq, h]; cases readOk <;> rfl
  · intro raw h hp; rw [loadComments_eq, h]; simp only [hp]; cases readOk <;> rfl
  · intro raw v h hp hv
    rw [loadComments_eq, h]; simp only [hp]
    cases readOk
    · rfl
    · cases v with
      | arr xs => exact absurd rfl (hv xs)
      | _ => rfl
  · intro raw xs hr h hp
    rw [loadComments_eq, h, hr]; simp only [hp, if_true]

/-- C7, on an unreadable store, an empty store, a text that is not JSON, a
JSON object and a JSON array. -/
theorem loadComments_never_raises_witness :
    loadComments sampleRuntime false (storageWith (utf16 "[null]")) = .ok [] ∧
    loadComments sampleRuntime true emptyStorage = .ok [] ∧
    loadComments sampleRuntime true (storageWith (utf16 "oops")) = .ok [] ∧
    loadComments sampleRuntime true (storageWith (utf16 "\x7b\x7d")) = .ok [] ∧
    loadComments sampleRuntime true (storageWith (utf16 "[null]")) = .ok [.null] :=
  ⟨(loadComments_never_raises sampleRuntime false (storageWith (utf16 "[null]"))).2.1 rfl,
    (loadComments_never_raises sampleRuntime true emptyStorage).2.2.1 rfl,
    (loadComments_never_raises sampleRuntime true (storageWith (utf16 "oops"))).2.2.2.1
      (utf16 "oops") rfl rfl,
    (loadComments_never_raises sampleRuntime true (storageWith (utf16 "\x7b\x7d"))).2.2.2.2.1
      (utf16 "\x7b\x7d") (.obj []) rfl rfl (fun _ h => by cases h),
    (loadComments_never_raises sampleRuntime true (storageWith (utf16 "[null]"))).2.2.2.2.2
      (utf16 "[null]") [.null] rfl rfl rfl⟩

/-- C8: with the text `[null]` stored under `blog_comments_v1`, `loadComments`
returns the one-element array and `renderComments` raises a `TypeError` on
reading `c.name`: the start-up does not complete. -/
theorem startup_raises_on_null_element :
    loadComments sampleRuntime true (storageWith (utf16 "[null]")) = .ok [.null] ∧
    (renderComments sampleRuntime ({ blankState with comments := [.null] })).2 =
      some .TypeError ∧
    startup sampleRuntime true true (storageWith (utf16 "[null]")) [] = .error .TypeError :=
  ⟨rfl, rfl, rfl⟩

/-- C3 as stated fails: with 201 well-formed records stored under
`blog_comments_v1` the start-up completes with a list of 201 entries. -/
theorem startup_keeps_long_list :
    (startup sampleRuntime true true (storageWith LONG_TEXT) []).toOption.map
      (fun s => decide ((run sampleRuntime s []).comments.length ≤ 200)) = some false := by
  have hr : (renderComments sampleRuntime
      { comments := longList, storage := storageWith LONG_TEXT, rootClasses := [],
        bwBtn := mkBtn false [], listChildren := [.placeholder], inputName := [],
        inputBody := [], bodyFocused := false, log := [] }).2 = none := by
    unfold renderComments
    rw [if_neg (by rw [longList_length]; decide)]
    exact renderLoop_replicate sampleRuntime storedRecord _ rfl 201 []
  obtain ⟨s, hs, hc⟩ := startup_of_render_ok sampleRuntime true true (storageWith LONG_TEXT) []
    longList loadComments_long hr
  rw [hs]
  simp only [Except.toOption, Option.map_some', run, List.foldl_nil, hc, longList_length]
  rfl

/-- C3, amended: when the list that `loadComments` returns at start-up has at
most 200 entries and the start-up completes, every state reached from it by
submit, clear-all and theme actions has at most 200 entries. -/
theorem list_stays_within_200 (rt : Runtime ν) (rc rp : Bool) (st : Storage)
    (root : List JSString) (s : State ν) (acts : List (Action ν)) (xs : List (JSVal ν))
    (hs : startup rt rc rp st root = .ok s) (hload : loadComments rt rc st = .ok xs)
    (hlen : xs.length ≤ 200) :
    (run rt s acts).comments.length ≤ 200 := by
  obtain ⟨s1, rfl, h1⟩ := startup_ok rt rc rp st root s hs
  apply run_length
  rw [initButton_comments, loadPref_comments]
  rw [hload] at h1
  injection h1 with h1
  rw [← h1]; exact hlen

/-- C3, amended, from an empty store through two submissions and a clear. -/
theorem list_stays_within_200_witness :
    startup sampleRuntime true true emptyStorage [] = .ok freshStart ∧
    loadComments sampleRuntime true emptyStorage = .ok [] ∧
    ([] : List (JSVal Int)).length ≤ 200 ∧
    (run sampleRuntime freshStart
      [.submit (utf16 "Ann") (utf16 "Hello world") 1 true, .submit [] (utf16 "ok") 2 false,
        .clearAll true true]).comments.length ≤ 200 :=
  ⟨rfl, rfl, by decide,
    list_stays_within_200 sampleRuntime true true emptyStorage [] freshStart _ [] rfl rfl
      (by decide)⟩

/-- C4 as stated fails: on a page with nothing stored the start-up leaves
`blog_bw_mode_v1` absent, and two clicks leave the text `0` there. -/
theorem toggle_twice_writes_zero :
    startup sampleRuntime true true emptyStorage [] = .ok freshStart ∧
    freshStart.storage LS_KEY = none ∧
    (clickHandler true (clickHandler true freshStart)).storage LS_KEY = some (utf16 "0") :=
  ⟨rfl, rfl, by decide⟩

/-- C4, amended: two clicks bring the presence of `bw` on the root back to
what it was; the value under `blog_bw_mode_v1` is then the encoding of that
presence when the second write succeeds, the opposite encoding when only the
first write succeeded, and the earlier value when both writes failed. -/
theorem toggle_twice_restores_marker (s : State ν) (w1 w2 : Bool) :
    clsContains (clickHandler w2 (clickHandler w1 s)).rootClasses BW =
      clsContains s.rootClasses BW ∧
    (clickHandler w2 (clickHandler w1 s)).storage LS_KEY =
      (if w2 then some (if clsContains s.rootClasses BW then utf16 "1" else utf16 "0")
        else if w1 then some (if clsContains s.rootClasses BW then utf16 "0" else utf16 "1")
        else s.storage LS_KEY) := by
  have h1 : clsContains (clickHandler w1 s).rootClasses BW = !clsContains s.rootClasses BW := by
    rw [clickHandler_eq, applyBW_root]
  constructor
  · rw [clickHandler_eq, applyBW_root, h1, Bool.not_not]
  · rw [clickHandler_eq, applyBW_storage, h1, Bool.not_not]
    rw [clickHandler_eq, applyBW_storage]
    cases clsContains s.rootClasses BW <;> rfl

/-- C9: the click handler ends in the state in which `applyBW(!b, true)` ends,
`b` being the presence of `bw` on the root before the click (root class,
`aria-pressed`, button classes, stored value and all the rest alike). -/
theorem click_matches_applyBW (s : State ν) (w : Bool) :
    clickHandler w s = applyBW (!clsContains s.rootClasses BW) true w s :=
  clickHandler_eq w s

/-- C10: after a completed start-up and any sequence of `applyBW` calls,
clicks and comment actions, exactly one of `bw-toggle-btn-on` and
`bw-toggle-btn-off` is on the button, and "on" is present iff the root has
`bw` iff `aria-pressed` is `true`. -/
theorem theme_coherent_after_startup (rt : Runtime ν) (rc rp : Bool) (st : Storage)
    (root : List JSString) (s : State ν) (acts : List (Action ν))
    (hs : startup rt rc rp st root = .ok s) : ThemeCoherent (run rt s acts) := by
  obtain ⟨s1, rfl, _⟩ := startup_ok rt rc rp st root s hs
  exact run_coherent rt acts _ (initButton_coherent _ (loadPref_coherent rp s1))

/-- C10, from an empty store through a click, two `applyBW` calls with a
failing write and another click. -/
theorem theme_coherent_after_startup_witness :
    startup sampleRuntime true true emptyStorage [] = .ok freshStart ∧
    ThemeCoherent (run sampleRuntime freshStart
      [.click true, .applyBW true false true, .applyBW false true false, .click false]) :=
  ⟨rfl, theme_coherent_after_startup sampleRuntime true true emptyStorage [] freshStart _ rfl⟩

end Claims

/-- C5: for every string `s`, `escapeHtml(s)` returns a text without `<`, `>`,
`"` and `'`, in which every `&` starts one of the five entities, and decoding
the five entities in it gives back `s`. -/
theorem escapeHtml_literal_text {ν : Type} (rt : Runtime ν) (s : JSString) :
    ∃ out, escapeHtml rt (.str s) = .ok out ∧
      (∀ x ∈ out, x ≠ 60 ∧ x ≠ 62 ∧ x ≠ 34 ∧ x ≠ 39) ∧
      AmpStartsEntity out ∧
      decodeEntities out = s :=
  ⟨escapeText s, rfl, escapeText_clean s, ampStartsEntity_escapeText s, decode_escapeText s⟩

end BlogUI
